import Mathlib

/-!
Verification development for the copilot-bridge-client Python repository.

The Python sources (clients/python/copilot_interface.py, copilot_client.py,
copilot_grpc_client.py) are shallowly embedded below.  Python strings are
modelled as `List Char`; `json.loads` is modelled by an executable JSON
parser `jsonLoads`; network effects are made explicit by passing the
observable outcome of the exchange as a parameter.
-/

namespace CopilotBridge

/-- The JSON whitespace characters that `json.loads` skips between tokens. -/
def jsonWs (c : Char) : Bool :=
  c = ' ' || c = '\t' || c = '\n' || c = '\r'

/-- The ASCII characters matched by Python's `\s` regex class and by
`str.strip()` (ASCII subset; the embedding only handles ASCII whitespace). -/
def pyWs (c : Char) : Bool :=
  c = ' ' || c = '\t' || c = '\n' || c = '\r' || c = Char.ofNat 11 || c = Char.ofNat 12

/-- Model of a Python value produced by `json.loads`.  Numbers keep the
literal's digits as a mantissa/decimal-exponent pair so no floating-point
rounding enters the model; `inf`/`nan` cover the `Infinity`/`NaN` literals
that Python's `json.loads` accepts. -/
inductive Json where
  | null
  | bool (b : Bool)
  | num (m : Int) (e : Int)
  | inf (neg : Bool)
  | nan
  | str (s : List Char)
  | arr (elems : List Json)
  | obj (fields : List (List Char × Json))
deriving Repr

/-- Python truthiness (`if value:`) of a decoded JSON value. -/
def Json.truthy : Json → Bool
  | .null => false
  | .bool b => b
  | .num m _ => m ≠ 0
  | .inf _ => true
  | .nan => true
  | .str s => !s.isEmpty
  | .arr l => !l.isEmpty
  | .obj f => !f.isEmpty

/-- Dict insertion as performed while `json.loads` builds an object:
a repeated key overwrites the earlier value in place (last wins). -/
def insertKV (fields : List (List Char × Json)) (k : List Char) (v : Json) :
    List (List Char × Json) :=
  match fields with
  | [] => [(k, v)]
  | (k', v') :: rest =>
    if k' = k then (k', v) :: rest else (k', v') :: insertKV rest k v

/-- Model of `dict.__getitem__` / key membership on a decoded object. -/
def objGet (fields : List (List Char × Json)) (k : List Char) : Option Json :=
  match fields with
  | [] => none
  | (k', v) :: rest => if k' = k then some v else objGet rest k

/-- Model of `buffer.dropWhile jsonWs`: the token-separating whitespace skip of `json.loads`. -/
def skipWs : List Char → List Char
  | [] => []
  | c :: cs => if jsonWs c then skipWs cs else c :: cs

/-- Strip a literal keyword such as `null` from the front of the input. -/
def stripKeyword : List Char → List Char → Option (List Char)
  | [], s => some s
  | _ :: _, [] => none
  | p :: ps, c :: cs => if c = p then stripKeyword ps cs else none

def isDigit (c : Char) : Bool := '0' ≤ c && c ≤ '9'

def takeDigits : List Char → (List Char × List Char)
  | [] => ([], [])
  | c :: cs =>
    if isDigit c then
      let (d, r) := takeDigits cs
      (c :: d, r)
    else ([], c :: cs)

def digitsToNat (ds : List Char) : Nat :=
  ds.foldl (fun acc c => acc * 10 + (c.toNat - '0'.toNat)) 0

/-- Parse a JSON number literal (RFC 8259 grammar, as enforced by Python's
`json.loads`): optional minus, integer part without leading zeros, optional
fraction, optional exponent.  The value is returned as mantissa and decimal
exponent. -/
def parseNumber (s : List Char) : Option (Json × List Char) :=
  let (neg, s1) : Bool × List Char :=
    match s with
    | '-' :: r => (true, r)
    | _ => (false, s)
  let (intDs, s2) := takeDigits s1
  if intDs = [] then none
  else if intDs.length > 1 && intDs.head? = some '0' then none
  else
    let (fracDs, _) : List Char × List Char :=
      match s2 with
      | '.' :: r => takeDigits r
      | _ => ([], s2)
    if (match s2 with | '.' :: _ => fracDs.isEmpty | _ => false) then none
    else
      let afterFrac : List Char := match s2 with | '.' :: r => (takeDigits r).2 | _ => s2
      let hasExp : Bool := match afterFrac with | 'e' :: _ => true | 'E' :: _ => true | _ => false
      if hasExp then
        let eRest : List Char := afterFrac.drop 1
        let (eNeg, eRest2) : Bool × List Char :=
          match eRest with
          | '+' :: r => (false, r)
          | '-' :: r => (true, r)
          | _ => (false, eRest)
        let (expDs, s4) := takeDigits eRest2
        if expDs = [] then none
        else
          let m : Int := (if neg then -1 else 1) * Int.ofNat (digitsToNat (intDs ++ fracDs))
          let ev : Int := (if eNeg then -1 else 1) * Int.ofNat (digitsToNat expDs)
          some (.num m (ev - Int.ofNat fracDs.length), s4)
      else
        let m : Int := (if neg then -1 else 1) * Int.ofNat (digitsToNat (intDs ++ fracDs))
        some (.num m (0 - Int.ofNat fracDs.length), afterFrac)

/-- Numeric value of one hexadecimal digit (the code-point ranges are
digits 48-57, lowercase 97-102, uppercase 65-70). -/
def hexVal (c : Char) : Option Nat :=
  let n := c.toNat
  if 48 ≤ n && n ≤ 57 then some (n - 48)
  else if 97 ≤ n && n ≤ 102 then some (n - 87)
  else if 65 ≤ n && n ≤ 70 then some (n - 55)
  else none

/-- Numeric value of the four hex digits of a `\uXXXX` escape. -/
def hex4 (a b c d : Char) : Option Nat :=
  match hexVal a, hexVal b, hexVal c, hexVal d with
  | some va, some vb, some vc, some vd => some (va * 4096 + vb * 256 + vc * 16 + vd)
  | _, _, _, _ => none

/-- Parse the body of a JSON string literal (after the opening quote) up to
the closing quote.  Strict mode of `json.loads`: raw control characters are
rejected, only the standard escapes are accepted, `\uXXXX` surrogate pairs
are combined.  A lone surrogate (which Python would keep as a lone
surrogate code unit, unrepresentable in `Char`) is mapped through
`Char.ofNat`, which sends invalid scalars to `'\0'`. -/
def parseStringBody : Nat → List Char → Option (List Char × List Char)
  | 0, _ => none
  | _, [] => none
  | _ + 1, '"' :: rest => some ([], rest)
  | fuel + 1, '\\' :: 'u' :: a :: b :: c :: d :: rest =>
    (match hex4 a b c d with
     | none => none
     | some n =>
       if 0xD800 ≤ n && n ≤ 0xDBFF then
         match rest with
         | '\\' :: 'u' :: a2 :: b2 :: c2 :: d2 :: rest2 =>
           (match hex4 a2 b2 c2 d2 with
            | some n2 =>
              if 0xDC00 ≤ n2 && n2 ≤ 0xDFFF then
                (parseStringBody fuel rest2).map fun (s, r) =>
                  (Char.ofNat (0x10000 + (n - 0xD800) * 0x400 + (n2 - 0xDC00)) :: s, r)
              else
                (parseStringBody fuel rest).map fun (s, r) => (Char.ofNat n :: s, r)
            | none => (parseStringBody fuel rest).map fun (s, r) => (Char.ofNat n :: s, r))
         | _ => (parseStringBody fuel rest).map fun (s, r) => (Char.ofNat n :: s, r)
       else
         (parseStringBody fuel rest).map fun (s, r) => (Char.ofNat n :: s, r))
  | fuel + 1, '\\' :: e :: rest =>
    let esc : Option Char :=
      if e = '"' then some '"'
      else if e = '\\' then some '\\'
      else if e = '/' then some '/'
      else if e = 'b' then some (Char.ofNat 8)
      else if e = 'f' then some (Char.ofNat 12)
      else if e = 'n' then some '\n'
      else if e = 'r' then some '\r'
      else if e = 't' then some '\t'
      else none
    match esc with
    | none => none
    | some ch => (parseStringBody fuel rest).map fun (s, r) => (ch :: s, r)
  | fuel + 1, c :: rest =>
    if c.toNat < 0x20 then none
    else (parseStringBody fuel rest).map fun (s, r) => (c :: s, r)

mutual

/-- One JSON value, returning the unconsumed remainder.  `fuel` bounds the
recursion depth of nested containers. -/
def parseValue : Nat → List Char → Option (Json × List Char)
  | 0, _ => none
  | fuel + 1, s =>
    let s := skipWs s
    match stripKeyword ['n', 'u', 'l', 'l'] s with
    | some r => some (.null, r)
    | none =>
    match stripKeyword ['t', 'r', 'u', 'e'] s with
    | some r => some (.bool true, r)
    | none =>
    match stripKeyword ['f', 'a', 'l', 's', 'e'] s with
    | some r => some (.bool false, r)
    | none =>
    match stripKeyword ['N', 'a', 'N'] s with
    | some r => some (.nan, r)
    | none =>
    match stripKeyword ['I', 'n', 'f', 'i', 'n', 'i', 't', 'y'] s with
    | some r => some (.inf false, r)
    | none =>
    match stripKeyword ['-', 'I', 'n', 'f', 'i', 'n', 'i', 't', 'y'] s with
    | some r => some (.inf true, r)
    | none =>
    match s with
    | '"' :: rest => (parseStringBody (rest.length + 1) rest).map fun (str, r) => (.str str, r)
    | '{' :: rest =>
      (match skipWs rest with
       | '}' :: r2 => some (.obj [], r2)
       | _ => parseMembers fuel rest [])
    | '[' :: rest =>
      (match skipWs rest with
       | ']' :: r2 => some (.arr [], r2)
       | _ => parseItems fuel rest [])
    | _ => parseNumber s

/-- The members of a JSON object after `{` (nonempty case): repeatedly a
string key, `:`, a value, then `,` or `}`. -/
def parseMembers : Nat → List Char → List (List Char × Json) →
    Option (Json × List Char)
  | 0, _, _ => none
  | fuel + 1, s, acc =>
    match skipWs s with
    | '"' :: rest =>
      match parseStringBody (rest.length + 1) rest with
      | none => none
      | some (key, r1) =>
        match skipWs r1 with
        | ':' :: r2 =>
          match parseValue fuel r2 with
          | none => none
          | some (v, r3) =>
            let acc := insertKV acc key v
            match skipWs r3 with
            | ',' :: r4 => parseMembers fuel r4 acc
            | '}' :: r4 => some (.obj acc, r4)
            | _ => none
        | _ => none
    | _ => none

/-- The items of a JSON array after `[` (nonempty case). -/
def parseItems : Nat → List Char → List Json → Option (Json × List Char)
  | 0, _, _ => none
  | fuel + 1, s, acc =>
    match parseValue fuel s with
    | none => none
    | some (v, r1) =>
      match skipWs r1 with
      | ',' :: r2 => parseItems fuel r2 (acc ++ [v])
      | ']' :: r2 => some (.arr (acc ++ [v]), r2)
      | _ => none

end

/-- Model of Python's `json.loads`: parse one JSON value, demand the rest of
the input be whitespace, and return `none` where Python raises
`json.JSONDecodeError`. -/
def jsonLoads (s : List Char) : Option Json :=
  match parseValue (2 * s.length + 4) s with
  | some (v, rest) => if skipWs rest = [] then some v else none
  | none => none

/-! ## chat_json (copilot_interface.py `ICopilotClient.chat_json`,
copilot_client.py `CopilotClient.chat_json` — both bodies are identical) -/

/-- Does `pat` occur at the front of `s`? -/
def startsWithL : List Char → List Char → Bool
  | [], _ => true
  | _ :: _, [] => false
  | p :: ps, c :: cs => c = p && startsWithL ps cs

/-- Three backticks, the fence delimiter of the regex
``` ```(?:json)?\s*([\s\S]*?)``` ```. -/
def fence3 : List Char := [Char.ofNat 96, Char.ofNat 96, Char.ofNat 96]

/-- The characters before the first occurrence of three consecutive
backticks, or `none` when there is none: the lazy group `([\s\S]*?)`
followed by the closing ``` ``` ```. -/
def takeUntilFence : List Char → Option (List Char)
  | [] => none
  | c :: cs =>
    if startsWithL fence3 (c :: cs) then some []
    else (takeUntilFence cs).map (c :: ·)

/-- The greedy `(?:json)?` right after the opening fence.  Consuming a
present `json` tag can never lose a match that skipping it would find,
since the four tag characters contain no backtick. -/
def dropJsonTag (s : List Char) : List Char :=
  match s with
  | 'j' :: 's' :: 'o' :: 'n' :: r => r
  | _ => s

/-- The greedy `\s*` after the optional tag. -/
def skipPyWs (s : List Char) : List Char := s.dropWhile pyWs

/-- Attempt the fence regex anchored at the current position. -/
def tryOpen (s : List Char) : Option (List Char) :=
  if startsWithL fence3 s then takeUntilFence (skipPyWs (dropJsonTag (s.drop 3)))
  else none

/-- Model of `re.search` with the fence regex: try every start position left to right
and return the first capture group. -/
def fenceExtract : List Char → Option (List Char)
  | [] => none
  | c :: cs =>
    match tryOpen (c :: cs) with
    | some cap => some cap
    | none => fenceExtract cs

/-- The suffix starting at the first `{` that has a `}` somewhere after it
(the leftmost start position at which `\{[\s\S]*\}` can match). -/
def fromOpenBrace : List Char → Option (List Char)
  | [] => none
  | c :: cs =>
    if c = '{' && cs.contains '}' then some (c :: cs)
    else fromOpenBrace cs

/-- Truncate after the last `}`: the greedy `[\s\S]*` backtracks to the
last closing brace of the input. -/
def upToLastClose (l : List Char) : List Char :=
  (l.reverse.dropWhile (fun c => c ≠ '}')).reverse

/-- Model of the search for `r"\x7b[\s\S]*\x7d"`: from the first `{` that is followed
by a `}`, through the last `}` of the text. -/
def braceExtract (s : List Char) : Option (List Char) :=
  (fromOpenBrace s).map upToLastClose

/-- Python `str.strip()` (ASCII whitespace). -/
def pyStrip (l : List Char) : List Char :=
  ((l.dropWhile pyWs).reverse.dropWhile pyWs).reverse

/-- How `chat_json` can fail after `chat` returned `text`:
`decodeError` models a `json.JSONDecodeError` escaping from stage 2 or 3,
`noJsonFound` the `CopilotClientError`/`ValueError`
`"Could not parse JSON from response:\n" + text[:500]`. -/
inductive ChatJsonError where
  | decodeError
  | noJsonFound (preview : List Char)
deriving Repr

/-- Behaviour of `chat_json` after the network call: the parsing of the response text
`text` returned by `chat`.  Mirrors the bodies of
`ICopilotClient.chat_json` and `CopilotClient.chat_json`. -/
def chatJsonL (text : List Char) : Except ChatJsonError Json :=
  match jsonLoads text with
  | some v => .ok v
  | none =>
    match fenceExtract text with
    | some grp =>
      match jsonLoads (pyStrip grp) with
      | some v => .ok v
      | none => .error .decodeError
    | none =>
      match braceExtract text with
      | some grp =>
        match jsonLoads grp with
        | some v => .ok v
        | none => .error .decodeError
      | none => .error (.noJsonFound (text.take 500))

/-- String-level convenience wrapper around `chatJsonL`. -/
def chatJson (text : String) : Except ChatJsonError Json := chatJsonL text.data

/-! ## Request building (copilot_client.py `CopilotClient._build_payload`,
copilot_grpc_client.py `CopilotGrpcClient._build_request`) -/

/-- A `{"role": ..., "content": ...}` message dict. -/
structure MsgDict where
  role : List Char
  content : List Char
deriving Repr, DecidableEq

/-- An element of the `messages` list argument: either a plain dict or a
`ChatMessage` dataclass instance (which has a `role` attribute and is not
a dict). -/
inductive PyMsg where
  | dict (m : MsgDict)
  | dataclass (role content : List Char)
deriving Repr, DecidableEq

/-- The `messages` argument of `chat`/`chat_full`/`chat_stream`: a single
prompt string or a list of messages. -/
inductive MessagesArg where
  | str (s : List Char)
  | list (ms : List PyMsg)
deriving Repr, DecidableEq

/-- The list comprehension of `_build_payload`: a dataclass is converted to
a dict, a dict is kept as is. -/
def normMsg : PyMsg → MsgDict
  | .dict m => m
  | .dataclass r c => ⟨r, c⟩

/-- The JSON body sent by the HTTP client; `none` in an optional field
means the key is absent from the dict. -/
structure Payload where
  messages : List MsgDict
  model : Option (List Char)
  vendor : Option (List Char)
  systemPrompt : Option (List Char)
deriving Repr, DecidableEq

/-- Python truthiness of a `str | None` value: `None` and `""` are falsy. -/
def pyTruthyS : Option (List Char) → Bool
  | some s => !s.isEmpty
  | none => false

/-- Python's `a or b` on `str | None` operands. -/
def pyOrS (a b : Option (List Char)) : Option (List Char) :=
  if pyTruthyS a then a else b

/-- Model of `CopilotClient._build_payload`. -/
def build_payload (messages : MessagesArg)
    (model vendor system_prompt : Option (List Char))
    (default_model default_vendor : Option (List Char)) : Payload :=
  let msgs : List MsgDict :=
    match messages with
    | .str s => [⟨['u', 's', 'e', 'r'], s⟩]
    | .list ms => ms.map normMsg
  let m := pyOrS model default_model
  let v := pyOrS vendor default_vendor
  { messages := msgs
    model := if pyTruthyS m then m else none
    vendor := if pyTruthyS v then v else none
    systemPrompt := if pyTruthyS system_prompt then system_prompt else none }

/-- The client-side phase of `CopilotClient.chat` (and `chat_full`,
`chat_stream`) before the network exchange: `chat` computes
`self._build_payload(...)` and then unconditionally hands the payload to
`self._post` — `some payload` means an HTTP request carrying `payload` is
attempted; `none` would mean the call fails before any network I/O.  The
source performs no validation between building and posting. -/
def chat_sends (messages : MessagesArg)
    (model vendor system_prompt : Option (List Char))
    (default_model default_vendor : Option (List Char)) : Option Payload :=
  some (build_payload messages model vendor system_prompt default_model default_vendor)

/-- A `ChatMessage` dataclass as accepted by the gRPC client's `messages`
list (annotation `list[ChatMessage]`). -/
structure GChatMessage where
  role : List Char
  content : List Char
deriving Repr, DecidableEq

/-- The `messages` argument of the gRPC client's chat methods. -/
inductive GMessagesArg where
  | str (s : List Char)
  | list (ms : List GChatMessage)
deriving Repr, DecidableEq

/-- A protobuf `ChatMessage`. -/
structure PbChatMessage where
  role : List Char
  content : List Char
deriving Repr, DecidableEq

/-- A protobuf `ChatRequest` (proto3: all fields present, strings default
to `""`). -/
structure PbChatRequest where
  messages : List PbChatMessage
  model : List Char
  vendor : List Char
  system_prompt : List Char
deriving Repr, DecidableEq

/-- Python's `a or b` where `a : str | None` and `b : str`. -/
def pyOrStr (a : Option (List Char)) (b : List Char) : List Char :=
  match a with
  | some s => if s.isEmpty then b else s
  | none => b

/-- Model of `CopilotGrpcClient._build_request`; the stored defaults are the
constructor's `default_model or ""` and `default_vendor or ""`. -/
def build_request (messages : GMessagesArg)
    (model vendor system_prompt : Option (List Char))
    (default_model default_vendor : List Char) : PbChatRequest :=
  let msgs : List PbChatMessage :=
    match messages with
    | .str s => [⟨['u', 's', 'e', 'r'], s⟩]
    | .list ms => ms.map fun m => ⟨m.role, m.content⟩
  { messages := msgs
    model := pyOrStr model default_model
    vendor := pyOrStr vendor default_vendor
    system_prompt := pyOrStr system_prompt [] }

/-- The client-side phase of `CopilotGrpcClient.chat` (and `chat_full`,
`chat_stream`) before the network exchange: the request is built and
passed straight to the stub, with no validation in between. -/
def grpc_chat_sends (messages : GMessagesArg)
    (model vendor system_prompt : Option (List Char))
    (default_model default_vendor : List Char) : Option PbChatRequest :=
  some (build_request messages model vendor system_prompt default_model default_vendor)

/-! ## status (copilot_client.py `CopilotClient.status` and
`CopilotClient._get`) -/

/-- The observable outcome of the HTTP exchange performed by `_get`:
a 2xx reply with a body, an `urllib.error.HTTPError`, or an
`urllib.error.URLError` (server unreachable). -/
inductive GetOutcome where
  | success (body : List Char)
  | httpError (code : Nat) (body : List Char)
  | urlError (reason : List Char)
deriving Repr, DecidableEq

/-- How `status()` can fail: a `CopilotClientError` with its message, a
`json.JSONDecodeError` from parsing the reply body, or the
`AttributeError` from calling `.get` on a non-dict decoded body. -/
inductive ClientError where
  | copilotClientError (msg : List Char)
  | jsonDecodeError
  | attributeError
deriving Repr

/-- The connection-failure message of `_get`/`_post`. -/
def connectMsg (base_url reason : List Char) : List Char :=
  ("Cannot connect to Copilot Bridge at ".data) ++ base_url ++
    (". Is VS Code running with the extension? Error: ".data) ++ reason

/-- Model of `CopilotClient._get`: decode the reply body as JSON on success,
translate `HTTPError` and `URLError` into `CopilotClientError`s. -/
def get_result (outcome : GetOutcome) (base_url : List Char) :
    Except ClientError Json :=
  match outcome with
  | .success body =>
    match jsonLoads body with
    | some v => .ok v
    | none => .error .jsonDecodeError
  | .httpError code body =>
    .error (.copilotClientError (("HTTP ".data) ++ (Nat.repr code).data ++ (": ".data) ++ body))
  | .urlError reason => .error (.copilotClientError (connectMsg base_url reason))

/-- The `StatusResponse` dataclass.  Fields hold whatever decoded JSON
value `data.get(key, default)` produced: the Python constructor performs
no type checking. -/
structure StatusResponse where
  status : Json
  port : Json
  default_model : Json
  requests_served : Json
  version : Json
deriving Repr

/-- Model of `CopilotClient.status`. -/
def status (outcome : GetOutcome) (base_url : List Char) :
    Except ClientError StatusResponse :=
  match get_result outcome base_url with
  | .error e => .error e
  | .ok (Json.obj fields) =>
    .ok { status := (objGet fields "status".data).getD (.str [])
          port := (objGet fields "port".data).getD (.num 0 0)
          default_model := (objGet fields "defaultModel".data).getD (.str [])
          requests_served := (objGet fields "requestsServed".data).getD (.num 0 0)
          version := (objGet fields "version".data).getD (.str []) }
  | .ok _ => .error .attributeError

/-! ## The SSE read loop (copilot_client.py `CopilotClient._post_stream`) -/

/-- The `data: ` line marker. -/
def dataMark : List Char := "data: ".data

/-- Why the read loop stops before the input is exhausted: the `done`
event's `return`, the raised `CopilotClientError(event_data["error"])`,
the `AttributeError` from `.get` on a decoded non-dict, or the
`json.JSONDecodeError` from an unparseable `data: ` line. -/
inductive StreamTerm where
  | done
  | errored (v : Json)
  | attributeError
  | decodeError
deriving Repr

/-- Truthiness of `event_data.get("done")`: an absent key gives `None`,
which is falsy. -/
def truthyOpt : Option Json → Bool
  | some v => v.truthy
  | none => false

/-- The `for line in event.split("\n")` body of `_post_stream`, over the
lines of one event (and, by sequencing, of the following events): yielded
fragments are appended to `acc`, and a `some` termination reason models
`return`/`raise` leaving the generator. -/
def processLines : List (List Char) → List Json → List Json × Option StreamTerm
  | [], acc => (acc, none)
  | line :: rest, acc =>
    if startsWithL dataMark line then
      match jsonLoads (line.drop 6) with
      | none => (acc, some .decodeError)
      | some (Json.obj fields) =>
        if truthyOpt (objGet fields "done".data) then (acc, some .done)
        else
          match objGet fields "error".data with
          | some e => (acc, some (.errored e))
          | none =>
            match objGet fields "content".data with
            | some c => processLines rest (acc ++ [c])
            | none => processLines rest acc
      | some _ => (acc, some .attributeError)
    else processLines rest acc

/-- Model of `buffer.split` on the first blank line, when one is present: the part before the
first blank line and the remainder; `none` when the buffer holds no blank
line (`"\n\n" in buffer` is false). -/
def splitEvent : List Char → Option (List Char × List Char)
  | [] => none
  | c :: cs =>
    if c = '\n' && cs.head? = some '\n' then some ([], cs.tail)
    else (splitEvent cs).map fun (e, r) => (c :: e, r)

/-- Model of `event.split` on newlines. -/
def splitNL : List Char → List (List Char)
  | [] => [[]]
  | c :: cs =>
    if c = '\n' then [] :: splitNL cs
    else
      match splitNL cs with
      | [] => [[c]]
      | l :: ls => (c :: l) :: ls

/-- The inner `while "\n\n" in buffer` loop: repeatedly split one event
off the buffer and process its lines.  `fuel` bounds the iterations;
every iteration removes at least two characters from the buffer, so any
fuel above half the buffer length is enough. -/
def drainBuffer : Nat → List Char → List Json →
    List Json × List Char × Option StreamTerm
  | 0, buffer, acc => (acc, buffer, none)
  | fuel + 1, buffer, acc =>
    match splitEvent buffer with
    | none => (acc, buffer, none)
    | some (event, rest) =>
      match processLines (splitNL event) acc with
      | (acc', some t) => (acc', rest, some t)
      | (acc', none) => drainBuffer fuel rest acc'

/-- How the generator of `_post_stream` finishes. -/
inductive StreamOutcome where
  | done
  | errored (v : Json)
  | attributeError
  | decodeError
  | eof
deriving Repr

def termOutcome : StreamTerm → StreamOutcome
  | .done => .done
  | .errored v => .errored v
  | .attributeError => .attributeError
  | .decodeError => .decodeError

/-- What the generator produces overall. -/
structure StreamResult where
  yields : List Json
  outcome : StreamOutcome
deriving Repr

/-- The outer `while True` read loop of `_post_stream` over the successive
chunks returned by `resp.read(1024)`: an exhausted chunk list, like an
empty chunk, models `read` returning `b""`, upon which the loop breaks
with the current buffer abandoned. -/
def runChunks : List (List Char) → List Char → List Json → StreamResult
  | [], _, acc => ⟨acc, .eof⟩
  | chunk :: rest, buffer, acc =>
    if chunk.isEmpty then ⟨acc, .eof⟩
    else
      let buf := buffer ++ chunk
      match drainBuffer (buf.length + 1) buf acc with
      | (acc', _, some t) => ⟨acc', termOutcome t⟩
      | (acc', buf', none) => runChunks rest buf' acc'

/-- The read loop of `_post_stream` from its initial state (`buffer = ""`). -/
def postStreamL (chunks : List (List Char)) : StreamResult :=
  runChunks chunks [] []

/-- String-level convenience wrapper around `postStreamL`. -/
def postStream (chunks : List String) : StreamResult :=
  postStreamL (chunks.map String.data)

/-! ## Resource release of `_post_stream` (the `try`/`finally` around the
read loop) -/

/-- Externally observable events of one `_post_stream` call: fragments
reaching the consumer and calls to `resp.close()`. -/
inductive StreamEvent where
  | fragment (v : Json)
  | close
deriving Repr

def isClose : StreamEvent → Bool
  | .close => true
  | _ => false

/-- Type `StreamOutcome` extended with the consumer abandoning the generator:
`close()` on a suspended generator raises `GeneratorExit` at the `yield`,
which runs the `finally` block and ends the generator. -/
inductive TraceOutcome where
  | finished (o : StreamOutcome)
  | abandoned
deriving Repr

/-- The event trace of one `_post_stream` call.  The read loop runs inside
`try: ... finally: resp.close()`: whichever way the loop exits — `break`
on end of input, `return` on a done event, a raised error, or
`GeneratorExit` when the consumer stops after `k` fragments — the
`finally` clause appends exactly one `close`.  The loop body itself never
closes the response. -/
def streamTrace (chunks : List (List Char)) (consumed : Option Nat) :
    List StreamEvent × TraceOutcome :=
  let r := postStreamL chunks
  match consumed with
  | some k =>
    if k < r.yields.length then
      (((r.yields.take k).map .fragment) ++ [.close], .abandoned)
    else ((r.yields.map .fragment) ++ [.close], .finished r.outcome)
  | none => ((r.yields.map .fragment) ++ [.close], .finished r.outcome)

/-! ## gRPC streaming (copilot_grpc_client.py `CopilotGrpcClient.chat_stream`) -/

/-- A protobuf stream message as seen by `chat_stream` (proto3 defaults:
`error`/`content` default to `""`, `done` to `False`). -/
structure PbStreamChunk where
  error : List Char
  done : Bool
  content : List Char
deriving Repr, DecidableEq

/-- How the gRPC generator finishes. -/
inductive GrpcOutcome where
  | done
  | errored (msg : List Char)
  | eof
deriving Repr, DecidableEq

/-- The `for chunk in self._stub.ChatStream(req)` loop of the gRPC
`chat_stream`: `if chunk.error:` raises, `if chunk.done:` returns,
`if chunk.content:` yields — each test is Python truthiness, so empty
strings are skipped. -/
def grpc_chat_stream : List PbStreamChunk → List (List Char) × GrpcOutcome
  | [] => ([], .eof)
  | c :: cs =>
    if !c.error.isEmpty then ([], .errored c.error)
    else if c.done then ([], .done)
    else if !c.content.isEmpty then
      let (ys, o) := grpc_chat_stream cs
      (c.content :: ys, o)
    else grpc_chat_stream cs

/-- The response text wrapped in a fenced code block tagged `json`:
`"```json\n" + text + "\n```"`. -/
def wrapFence (text : List Char) : List Char :=
  fence3 ++ ('j' :: 's' :: 'o' :: 'n' :: '\n' :: (text ++ '\n' :: fence3))

/-! ## Helper lemmas -/

theorem startsWithL_append (p r : List Char) : startsWithL p (p ++ r) = true := by
  induction p with
  | nil => rfl
  | cons c cs ih => simp [startsWithL, ih]

theorem drop_dataMark (s : List Char) : (dataMark ++ s).drop 6 = s :=
  List.drop_left dataMark s

theorem splitEvent_append (l r : List Char) (h : ∀ c ∈ l, c ≠ '\n') :
    splitEvent (l ++ '\n' :: '\n' :: r) = some (l, r) := by
  induction l with
  | nil => rfl
  | cons c cs ih =>
    have hc : c ≠ '\n' := h c (List.mem_cons_self c cs)
    have ih' := ih (fun x hx => h x (List.mem_cons_of_mem c hx))
    simp [splitEvent, hc, ih']

theorem splitNL_no_newline (l : List Char) (h : ∀ c ∈ l, c ≠ '\n') :
    splitNL l = [l] := by
  induction l with
  | nil => rfl
  | cons c cs ih =>
    have hc : c ≠ '\n' := h c (List.mem_cons_self c cs)
    have ih' := ih (fun x hx => h x (List.mem_cons_of_mem c hx))
    simp [splitNL, hc, ih']

theorem drainBuffer_nil (n : Nat) (acc : List Json) :
    drainBuffer n [] acc = (acc, [], none) := by
  cases n with
  | zero => rfl
  | succ m => rfl

theorem dataMark_chars : dataMark = ['d', 'a', 't', 'a', ':', ' '] := rfl

theorem drainBuffer_step (n : Nat) (buffer event rest : List Char) (acc : List Json)
    (hsplit : splitEvent buffer = some (event, rest)) :
    drainBuffer (n + 1) buffer acc =
      match processLines (splitNL event) acc with
      | (acc', some t) => (acc', rest, some t)
      | (acc', none) => drainBuffer n rest acc' := by
  simp [drainBuffer, hsplit]

theorem processLines_data (s : List Char) (acc : List Json) :
    processLines [dataMark ++ s] acc =
      match jsonLoads s with
      | none => (acc, some .decodeError)
      | some (Json.obj fields) =>
        if truthyOpt (objGet fields "done".data) then (acc, some .done)
        else
          match objGet fields "error".data with
          | some e => (acc, some (.errored e))
          | none =>
            match objGet fields "content".data with
            | some c => (acc ++ [c], none)
            | none => (acc, none)
      | some _ => (acc, some .attributeError) := by
  simp only [processLines, startsWithL_append, if_true, drop_dataMark]

theorem trace_shape (l : List Json) :
    ((l.map StreamEvent.fragment) ++ [StreamEvent.close]).countP isClose = 1 ∧
    ((l.map StreamEvent.fragment) ++ [StreamEvent.close]).getLast? = some .close := by
  constructor
  · rw [List.countP_append]
    simp [List.countP_map, Function.comp, isClose]
  · simp

theorem parseValue_backtick (fuel : Nat) (rest : List Char) :
    parseValue (fuel + 1) (Char.ofNat 96 :: rest) = none := by
  simp +decide [parseValue, skipWs, jsonWs, stripKeyword, parseNumber, takeDigits, isDigit]

theorem jsonLoads_backtick (rest : List Char) :
    jsonLoads (Char.ofNat 96 :: rest) = none := by
  have h : 2 * (Char.ofNat 96 :: rest).length + 4 =
      (2 * (Char.ofNat 96 :: rest).length + 3) + 1 := rfl
  rw [jsonLoads, h, parseValue_backtick]

theorem jsonLoads_nil : jsonLoads ([] : List Char) = none := rfl

theorem dropWhile_append_of_ne (p : Char → Bool) (l r : List Char)
    (hl : l.dropWhile p = l) (hne : l ≠ []) : (l ++ r).dropWhile p = l ++ r := by
  cases l with
  | nil => exact absurd rfl hne
  | cons h t =>
    have hph : p h = false := by
      by_cases hp : p h
      · rw [List.dropWhile_cons, if_pos hp] at hl
        have := (List.dropWhile_suffix (l := t) p).length_le
        rw [hl] at this
        simp at this
      · exact Bool.eq_false_iff.2 hp
    simp [List.dropWhile_cons, hph]

theorem dropWhile_of_pyStrip (text : List Char) (h : pyStrip text = text) :
    text.dropWhile pyWs = text := by
  have h1 : text.dropWhile pyWs <:+ text := List.dropWhile_suffix _
  have hlen : text.length ≤ (text.dropWhile pyWs).length := by
    calc text.length = (pyStrip text).length := by rw [h]
      _ = ((text.dropWhile pyWs).reverse.dropWhile pyWs).length := by simp [pyStrip]
      _ ≤ (text.dropWhile pyWs).reverse.length := (List.dropWhile_suffix _).length_le
      _ = (text.dropWhile pyWs).length := by simp
  exact h1.eq_of_length (le_antisymm h1.length_le hlen)

theorem reverse_dropWhile_of_pyStrip (text : List Char) (h : pyStrip text = text) :
    text.reverse.dropWhile pyWs = text.reverse := by
  have h2 := dropWhile_of_pyStrip text h
  have h3 : (text.reverse.dropWhile pyWs).reverse = text := by
    calc (text.reverse.dropWhile pyWs).reverse
        = ((text.dropWhile pyWs).reverse.dropWhile pyWs).reverse := by rw [h2]
      _ = pyStrip text := rfl
      _ = text := h
  calc text.reverse.dropWhile pyWs
      = (text.reverse.dropWhile pyWs).reverse.reverse := by simp
    _ = text.reverse := by rw [h3]

theorem pyStrip_append_newline (text : List Char) (hne : text ≠ [])
    (h : pyStrip text = text) : pyStrip (text ++ ['\n']) = text := by
  have hlead : (text ++ ['\n']).dropWhile pyWs = text ++ ['\n'] :=
    dropWhile_append_of_ne pyWs text ['\n'] (dropWhile_of_pyStrip text h) hne
  have hrev : (text ++ ['\n']).reverse = '\n' :: text.reverse := by simp
  calc pyStrip (text ++ ['\n'])
      = (((text ++ ['\n']).dropWhile pyWs).reverse.dropWhile pyWs).reverse := rfl
    _ = ((('\n' :: text.reverse)).dropWhile pyWs).reverse := by rw [hlead, hrev]
    _ = (text.reverse.dropWhile pyWs).reverse := by
        rw [List.dropWhile_cons]
        simp [pyWs]
    _ = text := by rw [reverse_dropWhile_of_pyStrip text h]; simp

theorem startsWithL_fence3_newline (x r : List Char)
    (h : startsWithL fence3 x = false) :
    startsWithL fence3 (x ++ '\n' :: r) = false := by
  match x with
  | [] => simp +decide [startsWithL, fence3]
  | [a] => simp +decide [startsWithL, fence3]
  | [a, b] => simp +decide [startsWithL, fence3]
  | a :: b :: c :: t =>
    simp only [startsWithL, fence3, List.cons_append] at h ⊢
    exact h

theorem takeUntilFence_append_close (l : List Char) (h : takeUntilFence l = none) :
    takeUntilFence (l ++ '\n' :: fence3) = some (l ++ ['\n']) := by
  induction l with
  | nil => rfl
  | cons c cs ih =>
    by_cases hs : startsWithL fence3 (c :: cs)
    · simp [takeUntilFence, hs] at h
    · have hcs : takeUntilFence cs = none := by
        simp only [takeUntilFence, hs, Bool.false_eq_true, if_false, Option.map_eq_none'] at h
        exact h
      have hsa : startsWithL fence3 ((c :: cs) ++ '\n' :: fence3) = false :=
        startsWithL_fence3_newline (c :: cs) fence3 (Bool.eq_false_iff.2 hs)
      rw [List.cons_append] at hsa ⊢
      rw [takeUntilFence, hsa]
      simp only [Bool.false_eq_true, if_false]
      rw [ih hcs]
      simp

theorem fenceExtract_cons (c : Char) (cs cap : List Char)
    (h : tryOpen (c :: cs) = some cap) : fenceExtract (c :: cs) = some cap := by
  simp [fenceExtract, h]

theorem tryOpen_wrapFence (text : List Char) (hne : text ≠ [])
    (hstrip : pyStrip text = text) (hnf : takeUntilFence text = none) :
    tryOpen (wrapFence text) = some (text ++ ['\n']) := by
  have h1 : startsWithL fence3 (wrapFence text) = true := startsWithL_append fence3 _
  rw [tryOpen, h1]
  simp only [if_true]
  have h2 : (wrapFence text).drop 3 =
      'j' :: 's' :: 'o' :: 'n' :: '\n' :: (text ++ '\n' :: fence3) :=
    List.drop_left fence3 _
  rw [h2]
  rw [show dropJsonTag ('j' :: 's' :: 'o' :: 'n' :: '\n' :: (text ++ '\n' :: fence3)) =
    '\n' :: (text ++ '\n' :: fence3) from rfl]
  have h3 : skipPyWs ('\n' :: (text ++ '\n' :: fence3)) = text ++ '\n' :: fence3 := by
    rw [skipPyWs, List.dropWhile_cons]
    rw [show pyWs '\n' = true from rfl]
    simp only [if_true]
    exact dropWhile_append_of_ne pyWs text _ (dropWhile_of_pyStrip text hstrip) hne
  rw [h3]
  exact takeUntilFence_append_close text hnf

/-! ## Claim theorems -/

/-- C1 (amended): the claim says an empty message sequence fails with a
ValidationError before any network call is attempted; neither client
performs such validation.  For every combination of option arguments, the
HTTP `chat` (and `chat_full`, `chat_stream`, which share `_build_payload`)
and the gRPC `chat` (sharing `_build_request`) build a request whose
`messages` list is empty and hand it to the transport unconditionally: a
network call is attempted and no client-side error is raised; any
rejection of the empty conversation comes from the server. -/
theorem c1_empty_messages_sent_unvalidated :
    (∀ model vendor system_prompt default_model default_vendor,
      (chat_sends (.list []) model vendor system_prompt default_model
          default_vendor).isSome = true ∧
      ∀ p, chat_sends (.list []) model vendor system_prompt default_model
          default_vendor = some p → p.messages = []) ∧
    (∀ model vendor system_prompt default_model default_vendor,
      (grpc_chat_sends (.list []) model vendor system_prompt default_model
          default_vendor).isSome = true ∧
      ∀ q, grpc_chat_sends (.list []) model vendor system_prompt default_model
          default_vendor = some q → q.messages = []) := by
  refine ⟨fun model vendor sp dm dv => ⟨rfl, ?_⟩, fun model vendor sp dm dv => ⟨rfl, ?_⟩⟩
  · intro p hp
    cases hp
    rfl
  · intro q hq
    cases hq
    rfl

/-- C1 witness: a concrete instantiation of the amended claim. -/
theorem c1_witness :
    (build_payload (.list []) (some ['m']) none none none none).messages = [] :=
  (c1_empty_messages_sent_unvalidated.1 (some ['m']) none none none none).2 _ rfl

/-- C1 counterexample: with an empty messages list, both clients produce a
request (`some payload`, with `messages = []`) for the transport instead
of failing with a validation error before the network call. -/
theorem c1_counterexample :
    chat_sends (.list []) none none none none none = some ⟨[], none, none, none⟩ ∧
    grpc_chat_sends (.list []) none none none [] [] = some ⟨[], [], [], []⟩ :=
  ⟨rfl, rfl⟩

/-- C2 (amended): the HTTP streaming loop splits its input on blank-line
event boundaries and, for each line starting with `data: `, decodes the
remainder with `json.loads` and dispatches: a decoded object with a truthy
`done` terminates the stream with no further output; otherwise an object
with an `error` key raises immediately; otherwise an object with a
`content` key yields that value and continues; an object with none of
these keys is ignored.  A `data: ` payload that decodes to a non-object
raises an `AttributeError` rather than being ignored, and an undecodable
payload raises a decode error.  The `He`/`llo`/`done` scenario yields
exactly `"He"` then `"llo"` and terminates, whether the three events
arrive in separate reads or in a single read. -/
theorem c2_sse_event_dispatch :
    (∀ (s : List Char) (v : Json), (∀ c ∈ s, c ≠ '\n') → jsonLoads s = some v →
      postStreamL [dataMark ++ s ++ ['\n', '\n']] =
        match v with
        | .obj fields =>
          if truthyOpt (objGet fields "done".data) then ⟨[], .done⟩
          else
            match objGet fields "error".data with
            | some e => ⟨[], .errored e⟩
            | none =>
              match objGet fields "content".data with
              | some c => ⟨[c], .eof⟩
              | none => ⟨[], .eof⟩
        | _ => ⟨[], .attributeError⟩) ∧
    (∀ s : List Char, (∀ c ∈ s, c ≠ '\n') → jsonLoads s = none →
      postStreamL [dataMark ++ s ++ ['\n', '\n']] = ⟨[], .decodeError⟩) ∧
    postStream ["data: \x7b\"content\":\"He\"\x7d\n\n", "data: \x7b\"content\":\"llo\"\x7d\n\n",
        "data: \x7b\"done\":true\x7d\n\n"] =
      ⟨[Json.str ['H', 'e'], Json.str ['l', 'l', 'o']], .done⟩ ∧
    postStream
        ["data: \x7b\"content\":\"He\"\x7d\n\ndata: \x7b\"content\":\"llo\"\x7d\n\ndata: \x7b\"done\":true\x7d\n\n"] =
      ⟨[Json.str ['H', 'e'], Json.str ['l', 'l', 'o']], .done⟩ := by
  refine ⟨?_, ?_, rfl, rfl⟩
  · intro s v hnl hp
    have hnodat : ∀ c ∈ dataMark ++ s, c ≠ '\n' := by
      intro c hc
      rcases List.mem_append.1 hc with h | h
      · rw [dataMark_chars] at h
        simp at h
        rcases h with rfl | rfl | rfl | rfl | rfl | rfl <;> decide
      · exact hnl c h
    have hne : (dataMark ++ s ++ ['\n', '\n']).isEmpty = false := by
      simp [dataMark_chars]
    unfold postStreamL
    simp only [runChunks, hne, Bool.false_eq_true, if_false, List.nil_append]
    rw [drainBuffer_step _ _ _ _ _ (splitEvent_append _ _ hnodat),
      splitNL_no_newline _ hnodat, processLines_data, hp]
    cases v with
    | obj fields =>
      by_cases hd : truthyOpt (objGet fields "done".data)
      · simp [hd, termOutcome]
      · simp only [hd, Bool.false_eq_true, if_false]
        cases he : objGet fields "error".data with
        | some e => simp [termOutcome]
        | none =>
          cases hc : objGet fields "content".data with
          | some c => simp [drainBuffer_nil, runChunks]
          | none => simp [drainBuffer_nil, runChunks]
    | null => simp [termOutcome]
    | bool b => simp [termOutcome]
    | num m e => simp [termOutcome]
    | inf n => simp [termOutcome]
    | nan => simp [termOutcome]
    | str str => simp [termOutcome]
    | arr elems => simp [termOutcome]
  · intro s hnl hp
    have hnodat : ∀ c ∈ dataMark ++ s, c ≠ '\n' := by
      intro c hc
      rcases List.mem_append.1 hc with h | h
      · rw [dataMark_chars] at h
        simp at h
        rcases h with rfl | rfl | rfl | rfl | rfl | rfl <;> decide
      · exact hnl c h
    have hne : (dataMark ++ s ++ ['\n', '\n']).isEmpty = false := by
      simp [dataMark_chars]
    unfold postStreamL
    simp only [runChunks, hne, Bool.false_eq_true, if_false, List.nil_append]
    rw [drainBuffer_step _ _ _ _ _ (splitEvent_append _ _ hnodat),
      splitNL_no_newline _ hnodat, processLines_data, hp]
    simp [termOutcome]

/-- C2 witness: the dispatch theorem applied to the single event
`data: \x7b"done":true\x7d`, and its decode-error clause applied to the
undecodable event `data: x`. -/
theorem c2_witness :
    postStreamL [dataMark ++ "\x7b\"done\":true\x7d".data ++ ['\n', '\n']] = ⟨[], .done⟩ ∧
    postStreamL [dataMark ++ "x".data ++ ['\n', '\n']] = ⟨[], .decodeError⟩ :=
  ⟨c2_sse_event_dispatch.1 ("\x7b\"done\":true\x7d".data)
      (.obj [("done".data, .bool true)]) (by decide) rfl,
    c2_sse_event_dispatch.2.1 ("x".data) (by decide) rfl⟩

/-- C2 counterexample: the event `data: 42` decodes to a non-object; the
claim says any other shape is ignored (so the following `content` event
would yield `"A"` and the stream would end normally), but the loop raises
an `AttributeError` at that event and yields nothing. -/
theorem c2_counterexample :
    postStream ["data: 42\n\ndata: \x7b\"content\":\"A\"\x7d\n\n"] = ⟨[], .attributeError⟩ ∧
    postStream ["data: 42\n\ndata: \x7b\"content\":\"A\"\x7d\n\n"] ≠ ⟨[Json.str ['A']], .eof⟩ :=
  ⟨rfl, fun h =>
    List.noConfusion (congrArg StreamResult.yields h : ([] : List Json) = [Json.str ['A']])⟩

/-- C3 (amended): `chat_json` tries (1) parsing the raw text, (2) the
first fenced code block, (3) the first brace-bounded substring, and the
error carrying the 500-character preview is raised if and only if the raw
parse fails AND no fence matches AND no brace-bounded substring exists.
When a fence does match but its stripped contents do not parse (and
likewise for a matched brace substring), the `json.JSONDecodeError`
propagates without the preview and the later stage is not attempted. -/
theorem c3_parse_error_conditions :
    ∀ text : List Char,
      (chatJsonL text = .error (.noJsonFound (text.take 500)) ↔
        jsonLoads text = none ∧ fenceExtract text = none ∧ braceExtract text = none) ∧
      (jsonLoads text = none → ∀ grp, fenceExtract text = some grp →
        jsonLoads (pyStrip grp) = none → chatJsonL text = .error .decodeError) ∧
      (jsonLoads text = none → fenceExtract text = none → ∀ grp, braceExtract text = some grp →
        jsonLoads grp = none → chatJsonL text = .error .decodeError) := by
  intro text
  refine ⟨?_, ?_, ?_⟩
  · cases h1 : jsonLoads text with
    | some v => simp [chatJsonL, h1]
    | none =>
      cases h2 : fenceExtract text with
      | some grp =>
        cases h3 : jsonLoads (pyStrip grp) with
        | some v => simp [chatJsonL, h1, h2, h3]
        | none => simp [chatJsonL, h1, h2, h3]
      | none =>
        cases h4 : braceExtract text with
        | some grp =>
          cases h5 : jsonLoads grp with
          | some v => simp [chatJsonL, h1, h2, h4, h5]
          | none => simp [chatJsonL, h1, h2, h4, h5]
        | none => simp [chatJsonL, h1, h2, h4]
  · intro h1 grp h2 h3
    simp [chatJsonL, h1, h2, h3]
  · intro h1 h2 grp h3 h4
    simp [chatJsonL, h1, h2, h3, h4]

/-- C3 witness: on `"```q```"` the fence matches with unparseable contents,
so the decode error propagates. -/
theorem c3_witness : chatJsonL ("```q```".data) = .error .decodeError :=
  (c3_parse_error_conditions ("```q```".data)).2.1 rfl ['q'] rfl rfl

/-- C3 counterexample: on `"```x```"` all three stages fail to produce a
value (the raw text does not parse, the fence's contents `x` do not parse,
and there is no brace-bounded substring), yet the raised error is a plain
decode error, not the ParseError carrying the 500-character preview that
the claim requires when all three stages fail. -/
theorem c3_counterexample :
    chatJson "```x```" = .error .decodeError ∧
    jsonLoads ("```x```".data) = none ∧
    fenceExtract ("```x```".data) = some ['x'] ∧
    jsonLoads (pyStrip ['x']) = none ∧
    braceExtract ("```x```".data) = none ∧
    (Except.error ChatJsonError.decodeError : Except ChatJsonError Json) ≠
      Except.error (ChatJsonError.noJsonFound (("```x```".data).take 500)) :=
  ⟨rfl, rfl, rfl, rfl, rfl, by simp⟩

/-- C4 (amended): for response text that is exactly the serialization of a
JSON object — it decodes to an object, carries no surrounding whitespace,
and (the condition the counterexample forces) contains no ``` fence
delimiter — `chat_json` returns the decoded object, and returns the same
value when the text is wrapped in a fenced code block tagged `json`. -/
theorem c4_chat_json_roundtrip :
    ∀ (text : List Char) (v : Json),
      jsonLoads text = some v →
      (match v with | Json.obj _ => True | _ => False) →
      pyStrip text = text →
      takeUntilFence text = none →
      chatJsonL text = .ok v ∧ chatJsonL (wrapFence text) = .ok v := by
  intro text v hp hobj hstrip hnf
  have hne : text ≠ [] := by
    intro hcontra
    rw [hcontra, jsonLoads_nil] at hp
    exact Option.noConfusion hp
  constructor
  · simp [chatJsonL, hp]
  · have hwrap : wrapFence text = Char.ofNat 96 :: (Char.ofNat 96 :: Char.ofNat 96 ::
        ('j' :: 's' :: 'o' :: 'n' :: '\n' :: (text ++ '\n' :: fence3))) := rfl
    have hload : jsonLoads (wrapFence text) = none := by
      rw [hwrap]
      exact jsonLoads_backtick _
    have hfen : fenceExtract (wrapFence text) = some (text ++ ['\n']) := by
      rw [hwrap]
      exact fenceExtract_cons _ _ _ (hwrap ▸ tryOpen_wrapFence text hne hstrip hnf)
    have hstrip2 : pyStrip (text ++ ['\n']) = text := pyStrip_append_newline text hne hstrip
    simp [chatJsonL, hload, hfen, hstrip2, hp]

/-- C4 witness: the round-trip theorem applied to `\x7b"a":1\x7d`. -/
theorem c4_witness :
    chatJsonL ("\x7b\"a\":1\x7d".data) = .ok (Json.obj [(['a'], Json.num 1 0)]) ∧
    chatJsonL (wrapFence ("\x7b\"a\":1\x7d".data)) = .ok (Json.obj [(['a'], Json.num 1 0)]) :=
  c4_chat_json_roundtrip ("\x7b\"a\":1\x7d".data) (Json.obj [(['a'], Json.num 1 0)])
    rfl trivial rfl rfl

/-- C4 counterexample: the object `\x7b"a": "x```y"\x7d` parses unwrapped, but
its serialization contains the ``` delimiter, so in a fenced block the
lazy fence regex captures only up to the backticks inside the string and
`chat_json` raises a decode error instead of returning the same value. -/
theorem c4_counterexample :
    chatJson "\x7b\"a\": \"x```y\"\x7d" = .ok (Json.obj [(['a'], Json.str "x```y".data)]) ∧
    chatJson "```json\n\x7b\"a\": \"x```y\"\x7d\n```" = .error .decodeError ∧
    (Except.error ChatJsonError.decodeError : Except ChatJsonError Json) ≠
      Except.ok (Json.obj [(['a'], Json.str "x```y".data)]) :=
  ⟨rfl, rfl, by simp⟩

/-- C5 (amended): `status()` fails with a `CopilotClientError` naming the
configured endpoint when the server is unreachable; a reply body that is
not valid JSON raises a decode error and a body that decodes to a
non-object raises an `AttributeError`; but a body that decodes to any
JSON object never fails: missing fields are filled with the defaults
`""`/`0` and present fields are passed through without type checking, so
malformed object replies (wrong types, missing keys) are accepted. -/
theorem c5_status_error_behavior :
    (∀ reason base_url, status (.urlError reason) base_url =
        .error (.copilotClientError (connectMsg base_url reason)) ∧
      ∃ pre suf, connectMsg base_url reason = pre ++ base_url ++ suf) ∧
    (∀ body base_url, jsonLoads body = none →
      status (.success body) base_url = .error .jsonDecodeError) ∧
    (∀ body base_url fields, jsonLoads body = some (.obj fields) →
      status (.success body) base_url = .ok
        { status := (objGet fields "status".data).getD (.str [])
          port := (objGet fields "port".data).getD (.num 0 0)
          default_model := (objGet fields "defaultModel".data).getD (.str [])
          requests_served := (objGet fields "requestsServed".data).getD (.num 0 0)
          version := (objGet fields "version".data).getD (.str []) }) ∧
    (∀ body base_url v, jsonLoads body = some v →
      (match v with | Json.obj _ => False | _ => True) →
      status (.success body) base_url = .error .attributeError) := by
  refine ⟨?_, ?_, ?_, ?_⟩
  · intro reason base_url
    refine ⟨rfl, "Cannot connect to Copilot Bridge at ".data,
      ". Is VS Code running with the extension? Error: ".data ++ reason, ?_⟩
    simp [connectMsg, List.append_assoc]
  · intro body base_url h
    simp [status, get_result, h]
  · intro body base_url fields h
    simp [status, get_result, h]
  · intro body base_url v h hv
    cases v <;> simp_all [status, get_result]

/-- C5 witness: a body that is not JSON at all raises the decode error. -/
theorem c5_witness :
    status (.success ("nope".data)) ['u'] = .error .jsonDecodeError :=
  c5_status_error_behavior.2.1 ("nope".data) ['u'] rfl

/-- C5 counterexample: the bodies `\x7b"status":5\x7d` (wrong field type) and
`\x7b\x7d` (all fields missing) are not well-formed representations of the
status shape, yet `status()` succeeds on both instead of failing with a
protocol error. -/
theorem c5_counterexample :
    status (.success ("\x7b\"status\":5\x7d".data)) ['u'] =
      .ok ⟨Json.num 5 0, Json.num 0 0, Json.str [], Json.num 0 0, Json.str []⟩ ∧
    status (.success ("\x7b\x7d".data)) ['u'] =
      .ok ⟨Json.str [], Json.num 0 0, Json.str [], Json.num 0 0, Json.str []⟩ ∧
    ∀ e, status (.success ("\x7b\"status\":5\x7d".data)) ['u'] ≠ .error e := by
  refine ⟨rfl, rfl, ?_⟩
  intro e h
  rw [show status (.success ("\x7b\"status\":5\x7d".data)) ['u'] =
    .ok ⟨Json.num 5 0, Json.num 0 0, Json.str [], Json.num 0 0, Json.str []⟩ from rfl] at h
  exact Except.noConfusion h

/-- C6 (amended): the HTTP request body always contains the messages list;
each optional field `model` / `vendor` / `systemPrompt` is present exactly
when the resolved value is a non-empty string.  A non-empty per-call
argument takes precedence over the client default, but an empty-string
value is treated like an unset one by Python's `or`/truthiness: an
empty-string per-call argument falls back to the default, and an
empty-string default leaves the field out. -/
theorem c6_optional_fields :
    ∀ (msgs : MessagesArg)
      (model vendor system_prompt default_model default_vendor : Option (List Char)),
      (build_payload msgs model vendor system_prompt default_model default_vendor).messages =
        (match msgs with
         | .str s => [⟨['u', 's', 'e', 'r'], s⟩]
         | .list ms => ms.map normMsg) ∧
      (build_payload msgs model vendor system_prompt default_model default_vendor).model =
        (match model with
         | some s =>
           if s = [] then
             (match default_model with
              | some d => if d = [] then none else some d
              | none => none)
           else some s
         | none =>
           (match default_model with
            | some d => if d = [] then none else some d
            | none => none)) ∧
      (build_payload msgs model vendor system_prompt default_model default_vendor).vendor =
        (match vendor with
         | some s =>
           if s = [] then
             (match default_vendor with
              | some d => if d = [] then none else some d
              | none => none)
           else some s
         | none =>
           (match default_vendor with
            | some d => if d = [] then none else some d
            | none => none)) ∧
      (build_payload msgs model vendor system_prompt default_model default_vendor).systemPrompt =
        (match system_prompt with
         | some s => if s = [] then none else some s
         | none => none) := by
  intro msgs model vendor system_prompt default_model default_vendor
  refine ⟨rfl, ?_, ?_, ?_⟩
  · rcases model with _ | s <;> rcases default_model with _ | d <;>
      simp [build_payload, pyOrS, pyTruthyS, List.isEmpty_iff] <;>
      (try by_cases hs : s = []) <;> (try by_cases hd : d = []) <;> simp_all
  · rcases vendor with _ | s <;> rcases default_vendor with _ | d <;>
      simp [build_payload, pyOrS, pyTruthyS, List.isEmpty_iff] <;>
      (try by_cases hs : s = []) <;> (try by_cases hd : d = []) <;> simp_all
  · rcases system_prompt with _ | s <;>
      simp [build_payload, pyOrS, pyTruthyS, List.isEmpty_iff]

/-- C6 witness: a non-empty per-call model wins over a non-empty default. -/
theorem c6_witness :
    (build_payload (.list []) (some ['m']) none none (some ['d']) none).model = some ['m'] :=
  (c6_optional_fields (.list []) (some ['m']) none none (some ['d']) none).2.1

/-- C6 counterexample: the per-call model is set to the empty string, yet
the payload carries the client default instead — the set per-call value
neither takes precedence nor appears; and an empty-string default, though
set, is omitted entirely. -/
theorem c6_counterexample :
    (build_payload (.list []) (some []) none none (some ['g']) none).model = some ['g'] ∧
    (some ['g'] : Option (List Char)) ≠ some [] ∧
    (build_payload (.list []) none none none (some []) none).model = none :=
  ⟨rfl, by simp, rfl⟩

/-- C7 (confirmed): a single string prompt builds exactly the same request
as the one-element message list with role `user` and the prompt as
content, for every combination of options, in both the HTTP payload and
the gRPC request. -/
theorem c7_string_prompt_wrapping :
    (∀ (s : List Char) (model vendor system_prompt default_model default_vendor :
        Option (List Char)),
      build_payload (.str s) model vendor system_prompt default_model default_vendor =
        build_payload (.list [.dict ⟨['u', 's', 'e', 'r'], s⟩]) model vendor system_prompt
          default_model default_vendor) ∧
    (∀ (s : List Char) (model vendor system_prompt : Option (List Char))
        (default_model default_vendor : List Char),
      build_request (.str s) model vendor system_prompt default_model default_vendor =
        build_request (.list [⟨['u', 's', 'e', 'r'], s⟩]) model vendor system_prompt
          default_model default_vendor) :=
  ⟨fun _ _ _ _ _ _ => rfl, fun _ _ _ _ _ _ => rfl⟩

/-- C7 witness: a concrete instantiation of the equivalence. -/
theorem c7_witness :
    build_payload (.str ['h', 'i']) none none none none none =
      build_payload (.list [.dict ⟨['u', 's', 'e', 'r'], ['h', 'i']⟩]) none none none
        none none :=
  c7_string_prompt_wrapping.1 ['h', 'i'] none none none none none

/-- C8 (confirmed): on every exit path of the streaming read loop — done
event, end of input, raised error, or the consumer abandoning the
generator after any number of fragments — the trace of one `_post_stream`
call contains exactly one `resp.close()`, and it comes after every
fragment. -/
theorem c8_connection_released_once :
    ∀ (chunks : List (List Char)) (consumed : Option Nat),
      (streamTrace chunks consumed).1.countP isClose = 1 ∧
      (streamTrace chunks consumed).1.getLast? = some .close := by
  intro chunks consumed
  cases consumed with
  | none => exact trace_shape _
  | some k =>
    by_cases h : k < (postStreamL chunks).yields.length
    · simp only [streamTrace, h, if_true]
      exact trace_shape _
    · simp only [streamTrace, h, if_false]
      exact trace_shape _

/-- C8 witness: the release property at a concrete stream and an early
abandoning consumer. -/
theorem c8_witness :
    (streamTrace ["data: \x7b\"done\":true\x7d\n\n".data] (some 0)).1.countP isClose = 1 ∧
    (streamTrace ["data: \x7b\"done\":true\x7d\n\n".data] (some 0)).1.getLast? = some .close :=
  c8_connection_released_once ["data: \x7b\"done\":true\x7d\n\n".data] (some 0)

/-- C9 (confirmed): every fragment the gRPC `chat_stream` yields is a
non-empty string, and an inbound message with empty `error`, `done` false
and empty `content` is skipped without output, while the HTTP client
yields an empty-string fragment for the event
`data: \x7b"content":""\x7d` — the two transports differ on empty
fragments. -/
theorem c9_grpc_empty_fragment_skipped :
    (∀ msgs s, s ∈ (grpc_chat_stream msgs).1 → s ≠ []) ∧
    (∀ msgs, grpc_chat_stream ({ error := [], done := false, content := [] } :: msgs) =
        grpc_chat_stream msgs) ∧
    postStream ["data: \x7b\"content\":\"\"\x7d\n\ndata: \x7b\"done\":true\x7d\n\n"] =
      ⟨[Json.str []], .done⟩ := by
  refine ⟨?_, fun msgs => rfl, rfl⟩
  intro msgs
  induction msgs with
  | nil => intro s hs; simp [grpc_chat_stream] at hs
  | cons c cs ih =>
    intro s hs
    rcases hgs : grpc_chat_stream cs with ⟨ys, o⟩
    rw [hgs] at ih
    simp only [grpc_chat_stream, hgs] at hs
    by_cases he : c.error.isEmpty
    · simp only [he, Bool.not_true, Bool.false_eq_true, if_false] at hs
      by_cases hd : c.done
      · simp [hd] at hs
      · simp only [hd, Bool.false_eq_true, if_false] at hs
        by_cases hc : c.content.isEmpty
        · simp only [hc, Bool.not_true, Bool.false_eq_true, if_false] at hs
          exact ih s hs
        · simp only [hc, Bool.not_false, if_true] at hs
          rcases List.mem_cons.1 hs with rfl | hs'
          · intro hnil
            rw [hnil] at hc
            exact hc rfl
          · exact ih s hs'
    · simp [he] at hs

/-- C9 witness: the non-emptiness property applied to a concrete stream in
which an all-default message is skipped. -/
theorem c9_witness : (['A'] : List Char) ≠ [] :=
  c9_grpc_empty_fragment_skipped.1
    [⟨[], false, []⟩, ⟨[], false, ['A']⟩, ⟨[], true, []⟩] ['A']
    (by rw [c9_grpc_empty_fragment_skipped.2.1]; exact List.mem_cons_self _ _)

/-- C10 (confirmed): when the read loop sees the end of input — an
exhausted source or an empty read — any partial event still in the buffer
is discarded silently: nothing more is yielded, no error is raised, and
the generator terminates normally; concretely, a stream ending in the
middle of a second event yields only the first fragment. -/
theorem c10_trailing_buffer_discarded :
    (∀ buffer acc, runChunks [] buffer acc = ⟨acc, .eof⟩) ∧
    (∀ chunks buffer acc, runChunks ([] :: chunks) buffer acc = ⟨acc, .eof⟩) ∧
    postStream ["data: \x7b\"content\":\"He\"\x7d\n\ndata: \x7b\"cont"] =
      ⟨[Json.str ['H', 'e']], .eof⟩ :=
  ⟨fun _ _ => rfl, fun _ _ _ => rfl, rfl⟩

/-- C10 witness: a concrete instantiation of the end-of-input clauses. -/
theorem c10_witness :
    runChunks [] ("data: \x7b\"cont".data) [Json.str ['H', 'e']] =
      ⟨[Json.str ['H', 'e']], .eof⟩ :=
  c10_trailing_buffer_discarded.1 ("data: \x7b\"cont".data) [Json.str ['H', 'e']]

end CopilotBridge
